import Mathlib

/-!
Verification of the March Madness bracket predictor
(`bracket_predictor.py`) against its natural-language specification.

The Python source is shallowly embedded:

* Python `dict`s become association lists (`List (K × V)`) with
  insertion-order-preserving update (`dinsert`), first-match lookup
  (`dget?`), `keys` and `values` projections — matching CPython's
  insertion-ordered dictionaries.
* `float` ELO ratings become exact rationals `Q` (see below).
* `random.uniform(a, b)` becomes `uniform a b u` = `a + (b - a) * u`
  where `u : Q` is a unit draw taken from an explicit draw stream
  `Draws = Nat → Q`; a position counter is threaded so that each call
  to `random.uniform` consumes one draw, in program order.
* `sorted(...)` becomes `List.insertionSort` (a stable sort, like
  Python's `sorted`).
-/

/-! ## Exact rational arithmetic

Python `float` ratings are modelled by exact rationals.  Mathlib's `ℚ`
normalizes through `Nat.gcd`, which the kernel cannot evaluate, so the
program text uses raw numerator/denominator pairs `Q` (never
normalized); every value the embedded program builds has a positive
denominator, and on such values `Q.toRat` maps the arithmetic and the
comparisons to Mathlib's rationals (see the `Q.toRat` lemmas below). -/

/-- An exact rational as a raw numerator/denominator pair. -/
structure Q where
  num : Int
  den : Int
deriving DecidableEq, Repr, Inhabited

instance (n : Nat) : OfNat Q n := ⟨⟨n, 1⟩⟩

instance : NatCast Q := ⟨fun n => ⟨(n : Int), 1⟩⟩

/-- Decimal literals such as `0.05` denote `5 / 100`. -/
instance : OfScientific Q :=
  ⟨fun m b e => if b then ⟨(m : Int), (10 : Int) ^ e⟩ else ⟨(m : Int) * (10 : Int) ^ e, 1⟩⟩

instance : Add Q := ⟨fun a b => ⟨a.num * b.den + b.num * a.den, a.den * b.den⟩⟩

instance : Sub Q := ⟨fun a b => ⟨a.num * b.den - b.num * a.den, a.den * b.den⟩⟩

instance : Mul Q := ⟨fun a b => ⟨a.num * b.num, a.den * b.den⟩⟩

instance : LT Q := ⟨fun a b => a.num * b.den < b.num * a.den⟩

instance : LE Q := ⟨fun a b => a.num * b.den ≤ b.num * a.den⟩

instance (a b : Q) : Decidable (a < b) := Int.decLt _ _

instance (a b : Q) : Decidable (a ≤ b) := Int.decLe _ _

/-- Python `max(a, b)`: the first argument on ties. -/
def Q.max (a b : Q) : Q := if b ≤ a then a else b

/-- Python `min(a, b)`: the first argument on ties. -/
def Q.min (a b : Q) : Q := if a ≤ b then a else b

/-- Numeric (value) equality of raw fractions. -/
def Q.eqv (a b : Q) : Prop := a.num * b.den = b.num * a.den

instance (a b : Q) : Decidable (a.eqv b) := by unfold Q.eqv; infer_instance

/-- Interpretation into Mathlib's rationals. -/
def Q.toRat (q : Q) : ℚ := (q.num : ℚ) / (q.den : ℚ)

theorem Q.toRat_lt {a b : Q} (ha : 0 < a.den) (hb : 0 < b.den) :
    a < b ↔ a.toRat < b.toRat := by
  have ha' : (0 : ℚ) < (a.den : ℚ) := by exact_mod_cast ha
  have hb' : (0 : ℚ) < (b.den : ℚ) := by exact_mod_cast hb
  rw [Q.toRat, Q.toRat, div_lt_div_iff₀ ha' hb']
  constructor
  · intro h
    exact_mod_cast h
  · intro h
    exact_mod_cast h

theorem Q.toRat_le {a b : Q} (ha : 0 < a.den) (hb : 0 < b.den) :
    a ≤ b ↔ a.toRat ≤ b.toRat := by
  have ha' : (0 : ℚ) < (a.den : ℚ) := by exact_mod_cast ha
  have hb' : (0 : ℚ) < (b.den : ℚ) := by exact_mod_cast hb
  rw [Q.toRat, Q.toRat, div_le_div_iff₀ ha' hb']
  constructor
  · intro h
    exact_mod_cast h
  · intro h
    exact_mod_cast h

theorem Q.toRat_eqv {a b : Q} (ha : a.den ≠ 0) (hb : b.den ≠ 0) :
    a.eqv b ↔ a.toRat = b.toRat := by
  have ha' : ((a.den : ℚ)) ≠ 0 := by exact_mod_cast ha
  have hb' : ((b.den : ℚ)) ≠ 0 := by exact_mod_cast hb
  rw [Q.toRat, Q.toRat, div_eq_div_iff ha' hb', Q.eqv]
  constructor
  · intro h
    exact_mod_cast h
  · intro h
    exact_mod_cast h

theorem Q.toRat_mul (a b : Q) : (a * b).toRat = a.toRat * b.toRat := by
  show ((a.num * b.num : Int) : ℚ) / ((a.den * b.den : Int) : ℚ) = _
  push_cast
  rw [Q.toRat, Q.toRat, div_mul_div_comm]

theorem Q.toRat_add {a b : Q} (ha : a.den ≠ 0) (hb : b.den ≠ 0) :
    (a + b).toRat = a.toRat + b.toRat := by
  have ha' : ((a.den : ℚ)) ≠ 0 := by exact_mod_cast ha
  have hb' : ((b.den : ℚ)) ≠ 0 := by exact_mod_cast hb
  show ((a.num * b.den + b.num * a.den : Int) : ℚ) / ((a.den * b.den : Int) : ℚ) = _
  rw [Q.toRat, Q.toRat, div_add_div _ _ ha' hb']
  push_cast
  ring_nf

theorem Q.toRat_sub {a b : Q} (ha : a.den ≠ 0) (hb : b.den ≠ 0) :
    (a - b).toRat = a.toRat - b.toRat := by
  have ha' : ((a.den : ℚ)) ≠ 0 := by exact_mod_cast ha
  have hb' : ((b.den : ℚ)) ≠ 0 := by exact_mod_cast hb
  show ((a.num * b.den - b.num * a.den : Int) : ℚ) / ((a.den * b.den : Int) : ℚ) = _
  rw [Q.toRat, Q.toRat, div_sub_div _ _ ha' hb']
  push_cast
  ring_nf

/-! ## Python-style insertion-ordered dictionaries -/

/-- Python dict assignment `d[k] = v`: update the value in place if the
key is present (keeping its position), otherwise append the new binding. -/
def dinsert {K V : Type} [DecidableEq K] (k : K) (v : V) : List (K × V) → List (K × V)
  | [] => [(k, v)]
  | (k', v') :: rest => if k' = k then (k, v) :: rest else (k', v') :: dinsert k v rest

/-- Python dict lookup `d.get(k)`: first binding of the key, if any. -/
def dget? {K V : Type} [DecidableEq K] (k : K) : List (K × V) → Option V
  | [] => none
  | (k', v') :: rest => if k' = k then some v' else dget? k rest

/-- Python `d.keys()`, in insertion order. -/
def dkeys {K V : Type} (d : List (K × V)) : List K := d.map Prod.fst

/-- Python `d.values()`, in insertion order. -/
def dvalues {K V : Type} (d : List (K × V)) : List V := d.map Prod.snd

/-! ## String ordering

Python sorts strings lexicographically by Unicode code point.  Core's
`String <` is decided through `String.ltb`, which is defined by
well-founded recursion and does not reduce in the kernel, so the
embedding uses its own (equivalent, kernel-computable) lexicographic
comparison on the underlying character lists. -/

/-- Lexicographic strict order on character lists, by code point. -/
def charListLt : List Char → List Char → Bool
  | _, [] => false
  | [], _ :: _ => true
  | a :: as, b :: bs =>
    Nat.blt a.toNat b.toNat || (a.toNat == b.toNat && charListLt as bs)

/-- Lexicographic `≤` on strings, by code point (Python's string order). -/
def strLe (a b : String) : Bool := a == b || charListLt a.data b.data

/-- Python `sorted` on a list of strings. -/
def sortStrings (l : List String) : List String :=
  List.insertionSort (fun a b => strLe a b = true) l

/-! ## Data model (`Team`, `Matchup`, result rows) -/

/-- The `Team` dataclass: `name`, `seed`, `elo`, `region`, `is_tbd`. -/
structure Team where
  name : String
  seed : Nat
  elo : Q
  region : String
  is_tbd : Bool := false
deriving DecidableEq, Repr, Inhabited

/-- The `Matchup` dataclass: two teams, a round number, a region, a
per-round `game_id` and the global `unique_game_id`. -/
structure Matchup where
  team1 : Team
  team2 : Team
  round_num : Nat
  region : String
  game_id : Nat
  unique_game_id : Nat := 0
deriving DecidableEq, Repr, Inhabited

/-- One row of the result table built by `simulate_tournament`: the
Python tuple `(team1, team2, winner, region, game_id, unique_game_id)`. -/
structure GameResult where
  team1 : Team
  team2 : Team
  winner : Team
  region : String
  game_id : Nat
  unique_game_id : Nat
deriving DecidableEq, Repr, Inhabited

/-- The result table: Python dict from round number to the round's rows. -/
abbrev Results := List (Nat × List GameResult)

/-- Winners-by-region accumulator: Python dict from region name to the
list of `(winner, game_id, unique_game_id)` triples recorded this round. -/
abbrev WBR := List (String × List (Team × Nat × Nat))

/-- An explicit stream of unit random draws in `[0,1]`; `random.uniform`
consumes one draw per call. -/
abbrev Draws := Nat → Q

/-- `random.uniform a b` applied to the unit draw `u`. -/
def uniform (a b u : Q) : Q := a + (b - a) * u

/-! ## `Matchup.simulate_with_seed_based_randomness` (source lines 58–163) -/

/-- The base randomness magnitude for rounds after the first
(`round_random_factor = 0.20` in the source). -/
def round_random_factor : Q := 0.20

/-- The nested `get_seed_factor` closure (source lines 124–142):
randomness magnitude as a function of seed and round for rounds 2–6. -/
def get_seed_factor (seed : Nat) (round_num : Nat) : Q :=
  if seed = 1 then
    Q.max 0.05 (round_random_factor - ((round_num - 1 : Nat) : Q) * 0.04)
  else if seed = 2 then
    Q.max 0.08 (round_random_factor - ((round_num - 1 : Nat) : Q) * 0.03)
  else if seed ≤ 4 then
    Q.max 0.12 (round_random_factor - ((round_num - 1 : Nat) : Q) * 0.02)
  else if seed ≤ 8 then
    Q.max 0.15 (round_random_factor - ((round_num - 1 : Nat) : Q) * 0.01)
  else
    Q.min 0.40 (round_random_factor + ((round_num - 1 : Nat) : Q) * 0.05)

/-- The first-round seed-pair randomness table (source lines 79–105),
keyed by `(higher_seed, lower_seed)`. -/
def round1_random_factor (higher_seed lower_seed : Nat) : Q :=
  if higher_seed = 1 ∧ lower_seed = 16 then 0.03
  else if higher_seed = 2 ∧ lower_seed = 15 then 0.10
  else if higher_seed = 3 ∧ lower_seed = 14 then 0.15
  else if higher_seed = 4 ∧ lower_seed = 13 then 0.18
  else if higher_seed = 5 ∧ lower_seed = 12 then 0.27
  else if higher_seed = 6 ∧ lower_seed = 11 then 0.30
  else if higher_seed = 7 ∧ lower_seed = 10 then 0.30
  else if higher_seed = 8 ∧ lower_seed = 9 then 0.40
  else 0.20

/-- The adjusted-ELO computation of
`simulate_with_seed_based_randomness` (source lines 68–157): the pair of
adjusted ratings just before the final comparison, given the two unit
draws `u1`, `u2` consumed by the two `random.uniform` calls. -/
def Matchup.adjusted_elos (m : Matchup) (u1 u2 : Q) : Q × Q :=
  let higher_seed := min m.team1.seed m.team2.seed
  let lower_seed := max m.team1.seed m.team2.seed
  if m.round_num = 1 then
    let random_factor := round1_random_factor higher_seed lower_seed
    (m.team1.elo * uniform (1 - random_factor) (1 + random_factor) u1,
     m.team2.elo * uniform (1 - random_factor) (1 + random_factor) u2)
  else
    let team1_factor := get_seed_factor m.team1.seed m.round_num
    let team2_factor := get_seed_factor m.team2.seed m.round_num
    let e1 := m.team1.elo * uniform (1 - team1_factor) (1 + team1_factor) u1
    let e2 := m.team2.elo * uniform (1 - team2_factor) (1 + team2_factor) u2
    let e1 := if m.round_num = 6 ∧ m.team1.seed = 1 then e1 * 1.05 else e1
    let e2 := if m.round_num = 6 ∧ m.team2.seed = 1 then e2 * 1.05 else e2
    (e1, e2)

/-- `Matchup.simulate_with_seed_based_randomness` (source lines 58–163):
adjust both ELOs, then `team1` wins iff its adjusted ELO is strictly
greater, otherwise `team2` wins. -/
def Matchup.simulate_with_seed_based_randomness (m : Matchup) (u1 u2 : Q) : Team :=
  let adjusted := m.adjusted_elos u1 u2
  if adjusted.1 > adjusted.2 then m.team1 else m.team2

/-- `Matchup.simulate` (source lines 38–56) with explicit draw-stream
threading: a first-round TBD side loses immediately (consuming no
draws); otherwise `simulate_with_seed_based_randomness` runs, consuming
the two draws at positions `pos` and `pos + 1`.  Returns the winner and
the new stream position. -/
def Matchup.simulateStep (m : Matchup) (d : Draws) (pos : Nat) : Team × Nat :=
  if m.team1.is_tbd = true ∧ m.round_num = 1 then (m.team2, pos)
  else if m.team2.is_tbd = true ∧ m.round_num = 1 then (m.team1, pos)
  else (m.simulate_with_seed_based_randomness (d pos) (d (pos + 1)), pos + 2)

/-! ## `BracketPredictor.setup_first_round` (source lines 276–349) -/

/-- One input record of `teams_data`: `{name, seed, elo, region}`. -/
structure TeamInfo where
  name : String
  seed : Nat
  elo : Q
  region : String
deriving DecidableEq, Repr, Inhabited

/-- `create_tbd_team` (source lines 257–274), with the predictor's fixed
placeholder rating `tbd_elo = 1000.0`. -/
def create_tbd_team (seed : Nat) (region : String) : Team :=
  { name := "TBD", seed := seed, elo := 1000, region := region, is_tbd := true }

/-- The standard first-round seed pairings (source line 295). -/
def seed_matchups : List (Nat × Nat) :=
  [(1, 16), (8, 9), (5, 12), (4, 13), (6, 11), (3, 14), (7, 10), (2, 15)]

/-- The `self.teams` registry: each input record inserted into a dict
keyed by team name (source lines 284–292). -/
def buildTeams (teams_data : List TeamInfo) : List (String × Team) :=
  teams_data.foldl
    (fun acc ti =>
      dinsert ti.name
        { name := ti.name, seed := ti.seed, elo := ti.elo, region := ti.region, is_tbd := false }
        acc)
    []

/-- `teams_by_region`: group the registry's teams into a dict from
region to a dict from seed to team (source lines 307–312). -/
def teamsByRegion (teams_data : List TeamInfo) : List (String × List (Nat × Team)) :=
  (dvalues (buildTeams teams_data)).foldl
    (fun acc t => dinsert t.region (dinsert t.seed t ((dget? t.region acc).getD [])) acc)
    []

/-- The inner loop over `seed_matchups` for one region (source lines
320–344): state is `(bracket so far, region_teams, game_id)`; each pair
looks up its two seeds, synthesizing and recording a TBD team for a
missing seed, and appends one round-1 matchup with
`unique_game_id = game_id`. -/
def regionFirstRound (region : String) :
    List (Nat × Nat) → List Matchup × List (Nat × Team) × Nat → List Matchup × List (Nat × Team) × Nat
  | [], st => st
  | (seed1, seed2) :: rest, (bracket, region_teams, game_id) =>
    let team1 := (dget? seed1 region_teams).getD (create_tbd_team seed1 region)
    let region_teams := dinsert seed1 team1 region_teams
    let team2 := (dget? seed2 region_teams).getD (create_tbd_team seed2 region)
    let region_teams := dinsert seed2 team2 region_teams
    let m : Matchup :=
      { team1 := team1, team2 := team2, round_num := 1, region := region,
        game_id := game_id, unique_game_id := game_id }
    regionFirstRound region rest (bracket ++ [m], region_teams, game_id + 1)

/-- `setup_first_round` (source lines 276–349): regions in sorted name
order, eight matchups per region, with a single `game_id` counter
started at 1 before the region loop and never reset. -/
def setup_first_round (teams_data : List TeamInfo) : List Matchup :=
  let tbr := teamsByRegion teams_data
  let regions := sortStrings (dkeys tbr)
  (regions.foldl
    (fun (st : List Matchup × Nat) r =>
      let region_teams := (dget? r tbr).getD []
      let res := regionFirstRound r seed_matchups (st.1, region_teams, st.2)
      (res.1, res.2.2))
    ([], 1)).1

/-! ## `BracketPredictor.simulate_tournament` (source lines 351–512) -/

/-- `max([m.unique_game_id for m in current_matchups], default=0)`
(source line 372). -/
def maxUid (ms : List Matchup) : Nat := ms.foldl (fun a m => max a m.unique_game_id) 0

/-- The per-round simulation loop (source lines 384–397): simulate each
matchup in order, appending a result row and recording
`(winner, game_id, unique_game_id)` under the matchup's region.
Returns the round's rows, the updated winners-by-region dict, and the
advanced draw position. -/
def simulatePhase (d : Draws) : List Matchup → Nat → WBR → List GameResult × WBR × Nat
  | [], pos, wbr => ([], wbr, pos)
  | m :: ms, pos, wbr =>
    let step := m.simulateStep d pos
    let winner := step.1
    let wbr' := dinsert m.region
      (((dget? m.region wbr).getD []) ++ [(winner, m.game_id, m.unique_game_id)]) wbr
    let rest := simulatePhase d ms step.2 wbr'
    (⟨m.team1, m.team2, winner, m.region, m.game_id, m.unique_game_id⟩ :: rest.1,
     rest.2.1, rest.2.2)

/-- The pairing loop for one region's sorted winners (source lines
410–420): consecutive winners `(0,1),(2,3),…` become next-round
matchups and a trailing unpaired winner is dropped; state is
`(next_round_matchups, game_id, next_unique_id)`. -/
def pairRegionWinners (round_num : Nat) (region : String) :
    List Team → List Matchup × Nat × Nat → List Matchup × Nat × Nat
  | a :: b :: rest, (acc, game_id, next_unique_id) =>
    let m : Matchup :=
      { team1 := a, team2 := b, round_num := round_num + 1, region := region,
        game_id := game_id, unique_game_id := next_unique_id }
    pairRegionWinners round_num region rest (acc ++ [m], game_id + 1, next_unique_id + 1)
  | _, st => st

/-- Next-round construction for rounds 1–3 (source lines 400–420):
regions in sorted key order; within each region winners sorted by their
originating `game_id`; consecutive winners paired; one `game_id`
counter started at 1 before the region loop and never reset; one
globally increasing `unique_game_id` counter.  Returns the new matchups
and the advanced unique-id counter. -/
def buildNextLT4 (wbr : WBR) (current_round next_unique_id : Nat) : List Matchup × Nat :=
  let regions := sortStrings (dkeys wbr)
  let st := regions.foldl
    (fun (st : List Matchup × Nat × Nat) r =>
      let winners := (dget? r wbr).getD []
      let sorted_winners := List.insertionSort (fun a b => a.2.1 ≤ b.2.1) winners
      let winners_only := sorted_winners.map (fun w => w.1)
      pairRegionWinners current_round r winners_only st)
    ([], 1, next_unique_id)
  (st.1, st.2.2)

/-- The fixed bracket-order region list (source line 432). -/
def standard_regions : List String := ["East", "West", "South", "Midwest"]

/-- The sort key used for regional champions (source line 443): index in
`standard_regions`, or `999` for an unknown region. -/
def standardRegionIndex (r : String) : Nat :=
  (standard_regions.findIdx? (fun s => s = r)).getD 999

/-- One step of the regional-champions loop (source lines 426–429): if
the region has a recorded winner, append its first winner as champion. -/
def champStep (wbr : WBR) (acc : List (Team × String)) (r : String) : List (Team × String) :=
  match dget? r wbr with
  | some (w :: _) => acc ++ [(w.1, r)]
  | _ => acc

/-- The Elite-Eight-to-Final-Four construction (source lines 422–467):
take the first recorded winner of each region (in sorted key order) as
its champion, backfill any of the four standard regions with a TBD
champion of seed 1, sort champions by `standardRegionIndex`, and — when
at least four champions exist — build the two semifinal matchups with
`game_id` 1 and 2 and the next two unique ids. -/
def buildFinalFour (wbr : WBR) (next_unique_id : Nat) : List Matchup × Nat :=
  let regions := sortStrings (dkeys wbr)
  let regional_champions := regions.foldl (champStep wbr) []
  let existing_regions := regional_champions.map (fun c => c.2)
  let regional_champions := standard_regions.foldl
    (fun acc r => if r ∈ existing_regions then acc else acc ++ [(create_tbd_team 1 r, r)])
    regional_champions
  let regional_champions :=
    List.insertionSort (fun a b => standardRegionIndex a.2 ≤ standardRegionIndex b.2)
      regional_champions
  if regional_champions.length ≥ 4 then
    ([{ team1 := (regional_champions.get? 0).getD default |>.1,
        team2 := (regional_champions.get? 1).getD default |>.1,
        round_num := 5, region := "Final Four", game_id := 1,
        unique_game_id := next_unique_id },
      { team1 := (regional_champions.get? 2).getD default |>.1,
        team2 := (regional_champions.get? 3).getD default |>.1,
        round_num := 5, region := "Final Four", game_id := 2,
        unique_game_id := next_unique_id + 1 }],
     next_unique_id + 2)
  else ([], next_unique_id)

/-- The second simulation pass over the Final Four matchups in the
`current_round == 5` branch (source lines 473–476): collect the winners
in order, consuming two draws per matchup. -/
def simulateAll (d : Draws) : List Matchup → Nat → List Team × Nat
  | [], pos => ([], pos)
  | m :: ms, pos =>
    let step := m.simulateStep d pos
    let rest := simulateAll d ms step.2
    (step.1 :: rest.1, rest.2)

/-- The `current_round == 5` branch (source lines 469–499): re-simulate
every Final Four matchup, overwrite `results[5]` with rows built from
these second winners, and if at least two winners exist build the
championship matchup from the first two, simulate it at once, and
record it under round 6. -/
def round5Finish (d : Draws) (current_matchups : List Matchup) (pos : Nat)
    (results : Results) (next_unique_id : Nat) : Results :=
  let sim := simulateAll d current_matchups pos
  let final_four_winners := sim.1
  let rows := (current_matchups.zip final_four_winners).map
    (fun mw => GameResult.mk mw.1.team1 mw.1.team2 mw.2 mw.1.region mw.1.game_id mw.1.unique_game_id)
  let results := dinsert 5 rows results
  match final_four_winners with
  | w1 :: w2 :: _ =>
    let championship_matchup : Matchup :=
      { team1 := w1, team2 := w2, round_num := 6, region := "Championship",
        game_id := 1, unique_game_id := next_unique_id }
    let champ := (championship_matchup.simulateStep d sim.2).1
    dinsert 6
      [⟨championship_matchup.team1, championship_matchup.team2, champ,
        "Championship", 1, championship_matchup.unique_game_id⟩]
      results
  | _ => results

/-- The regions whose winner lists are reset at the top of each loop
iteration (source lines 380–381): the set of regions of the current
matchups. -/
def currentRegions (ms : List Matchup) : List String := (ms.map (fun m => m.region)).dedup

/-- The `while` loop of `simulate_tournament` (source lines 375–511),
with fuel for termination (the round counter increases every iteration
and is bounded by 6, so fuel 7 is never exhausted).  Each iteration:
reset the winner lists of the current matchups' regions, run
`simulatePhase`, store the round's rows, then branch on the round to
build the next matchups (rounds < 4 and round 4) or finish (round 5,
which `break`s after recording rounds 5 and 6). -/
def simLoop (d : Draws) :
    Nat → Nat → List Matchup → WBR → Results → Nat → Nat → Results
  | 0, _, _, _, results, _, _ => results
  | fuel + 1, current_round, current_matchups, wbr, results, next_unique_id, pos =>
    if current_round ≤ 6 ∧ (current_matchups ≠ [] ∨ current_round = 6) then
      let wbr := (currentRegions current_matchups).foldl (fun w r => dinsert r [] w) wbr
      let phase := simulatePhase d current_matchups pos wbr
      let results := dinsert current_round phase.1 results
      let wbr := phase.2.1
      let pos := phase.2.2
      if current_round < 4 then
        let nxt := buildNextLT4 wbr current_round next_unique_id
        simLoop d fuel (current_round + 1) nxt.1 wbr results nxt.2 pos
      else if current_round = 4 then
        let nxt := buildFinalFour wbr next_unique_id
        simLoop d fuel (current_round + 1) nxt.1 wbr results nxt.2 pos
      else if current_round = 5 then
        round5Finish d current_matchups pos results next_unique_id
      else
        simLoop d fuel (current_round + 1) [] wbr results next_unique_id pos
    else results

/-- `simulate_tournament` (source lines 351–512), run on a given
first-round bracket with a given draw stream. -/
def simulate_tournament (bracket : List Matchup) (d : Draws) : Results :=
  simLoop d 7 1 bracket [] [] (maxUid bracket + 1) 0

/-! ## Concrete end-to-end scenario inputs -/

/-- The four standard regions with a small rating offset each, `"East"`
(the alphabetically first region) strongest. -/
def stdRegionOffsets : List (String × Q) :=
  [("East", 0), ("West", 1), ("South", 2), ("Midwest", 3)]

/-- A complete 64-team input: seeds 1–16 in each of the four standard
regions, ratings strictly decreasing by seed within each region, and
the seed-1 team of `"East"` the unique overall-highest-rated team. -/
def stdTeams : List TeamInfo :=
  stdRegionOffsets.flatMap fun p =>
    (List.range 16).map fun i =>
      { name := p.1 ++ " " ++ toString (i + 1), seed := i + 1,
        elo := 2000 - 20 * ((i : Q) + 1) - p.2, region := p.1 }

/-- The draw stream in which every unit draw is `1/2`, making every
`random.uniform (1-r) (1+r)` call return exactly `1.0`. -/
def halfDraws : Draws := fun _ => ⟨1, 2⟩

/-! ## Supporting lemmas on the dictionary model -/

theorem dget?_dinsert_ne {K V : Type} [DecidableEq K] (k k' : K) (v : V)
    (l : List (K × V)) (h : k ≠ k') : dget? k (dinsert k' v l) = dget? k l := by
  induction l with
  | nil => simp [dinsert, dget?, Ne.symm h]
  | cons p rest ih =>
    obtain ⟨k'', v''⟩ := p
    by_cases hk : k'' = k'
    · subst hk
      simp [dinsert, dget?, Ne.symm h]
    · simp only [dinsert, if_neg hk, dget?]
      by_cases hk2 : k'' = k
      · simp [hk2]
      · simp [hk2, ih]

theorem dget?_dinsert_self {K V : Type} [DecidableEq K] (k : K) (v : V)
    (l : List (K × V)) : dget? k (dinsert k v l) = some v := by
  induction l with
  | nil => simp [dinsert, dget?]
  | cons p rest ih =>
    obtain ⟨k'', v''⟩ := p
    by_cases hk : k'' = k
    · subst hk
      simp [dinsert, dget?]
    · simp [dinsert, dget?, hk, ih]

theorem dkeys_dinsert {K V : Type} [DecidableEq K] (k : K) (v : V) (l : List (K × V)) :
    dkeys (dinsert k v l) = if k ∈ dkeys l then dkeys l else dkeys l ++ [k] := by
  induction l with
  | nil => simp [dinsert, dkeys]
  | cons p rest ih =>
    obtain ⟨k'', v''⟩ := p
    by_cases hk : k'' = k
    · subst hk
      simp [dinsert, dkeys]
    · simp only [dinsert, if_neg hk, dkeys, List.map_cons, List.mem_cons]
      rw [dkeys] at ih
      by_cases hm : k ∈ rest.map Prod.fst
      · simp [hm, ih, hk, Ne.symm hk, dkeys]
      · simp [hm, ih, hk, Ne.symm hk, dkeys]

theorem nodup_dkeys_dinsert {K V : Type} [DecidableEq K] (k : K) (v : V)
    (l : List (K × V)) (h : (dkeys l).Nodup) : (dkeys (dinsert k v l)).Nodup := by
  rw [dkeys_dinsert]
  by_cases hm : k ∈ dkeys l
  · simp [hm, h]
  · rw [if_neg hm]
    rw [List.nodup_append]
    refine ⟨h, List.nodup_singleton _, ?_⟩
    intro a ha hak
    simp only [List.mem_singleton] at hak
    exact hm (hak ▸ ha)

/-! ## Claim C3 -/

/-- Claim C3: for every round-1 matchup in which exactly one of the two
teams is TBD, `simulate` returns the non-TBD team, for all rating
values and independently of the random draws (no draw is consumed). -/
theorem C3_round1_bye (m : Matchup) (d d' : Draws) (pos pos' : Nat)
    (hr : m.round_num = 1)
    (h : m.team1.is_tbd = true ∧ m.team2.is_tbd = false ∨
         m.team1.is_tbd = false ∧ m.team2.is_tbd = true) :
    (m.simulateStep d pos).1 = (if m.team1.is_tbd then m.team2 else m.team1) ∧
    (m.simulateStep d pos).1 = (m.simulateStep d' pos').1 := by
  rcases h with ⟨h1, h2⟩ | ⟨h1, h2⟩ <;>
    simp [Matchup.simulateStep, hr, h1, h2]

/-- Witness for C3: a concrete round-1 matchup with a TBD second team is
won by the first team, whatever stream it is simulated against. -/
theorem C3_round1_bye_witness :
    (Matchup.simulateStep
        { team1 := { name := "A", seed := 1, elo := ⟨100, 1⟩, region := "East" },
          team2 := create_tbd_team 16 "East",
          round_num := 1, region := "East", game_id := 1, unique_game_id := 1 }
        halfDraws 0).1 =
      { name := "A", seed := 1, elo := ⟨100, 1⟩, region := "East" } := by
  have h := C3_round1_bye
    { team1 := { name := "A", seed := 1, elo := ⟨100, 1⟩, region := "East" },
      team2 := create_tbd_team 16 "East",
      round_num := 1, region := "East", game_id := 1, unique_game_id := 1 }
    halfDraws halfDraws 0 0 rfl (Or.inr ⟨rfl, rfl⟩)
  simpa using h.1

/-! ## Claim C4 -/

/-- Claim C4: whenever a simulation reaches the final rating comparison,
the team with the strictly greater adjusted rating wins, and an exact
tie of the adjusted ratings resolves to `team2`. -/
theorem C4_resolution (m : Matchup) (u1 u2 : Q) :
    m.simulate_with_seed_based_randomness u1 u2 =
      (if (m.adjusted_elos u1 u2).1 > (m.adjusted_elos u1 u2).2 then m.team1 else m.team2) ∧
    ((m.adjusted_elos u1 u2).1.eqv (m.adjusted_elos u1 u2).2 →
      m.simulate_with_seed_based_randomness u1 u2 = m.team2) := by
  constructor
  · rfl
  · intro h
    rw [Q.eqv] at h
    show (if _ > _ then _ else _) = _
    rw [if_neg]
    show ¬ ((m.adjusted_elos u1 u2).2.num * (m.adjusted_elos u1 u2).1.den <
            (m.adjusted_elos u1 u2).1.num * (m.adjusted_elos u1 u2).2.den)
    rw [h]
    exact lt_irrefl _

/-- Witness for C4: a concrete round-2 matchup between equally rated,
equally seeded teams with equal draws is an exact tie and goes to
`team2`. -/
theorem C4_resolution_witness :
    (Matchup.simulate_with_seed_based_randomness
        { team1 := { name := "A", seed := 5, elo := ⟨100, 1⟩, region := "East" },
          team2 := { name := "B", seed := 5, elo := ⟨100, 1⟩, region := "East" },
          round_num := 2, region := "East", game_id := 1, unique_game_id := 33 }
        ⟨1, 2⟩ ⟨1, 2⟩) =
      { name := "B", seed := 5, elo := ⟨100, 1⟩, region := "East" } :=
  (C4_resolution
    { team1 := { name := "A", seed := 5, elo := ⟨100, 1⟩, region := "East" },
      team2 := { name := "B", seed := 5, elo := ⟨100, 1⟩, region := "East" },
      round_num := 2, region := "East", game_id := 1, unique_game_id := 33 }
    ⟨1, 2⟩ ⟨1, 2⟩).2 (by decide)

/-! ## Claim C8 -/

/-- Claim C8: simulating a matchup is a pure query — the returned winner
is exactly one of the two input `Team` values (the same entity, every
field including the rating unchanged); no adjusted rating is ever
written back. -/
theorem C8_simulate_pure (m : Matchup) (d : Draws) (pos : Nat) :
    (m.simulateStep d pos).1 = m.team1 ∨ (m.simulateStep d pos).1 = m.team2 := by
  unfold Matchup.simulateStep Matchup.simulate_with_seed_based_randomness
  split
  · exact Or.inr rfl
  · split
    · exact Or.inl rfl
    · simp only []
      split
      · exact Or.inl rfl
      · exact Or.inr rfl

/-! ## Claim C5 -/

/-- The seed-tier randomness formula exactly as the specification words
it, for comparison with the source's `get_seed_factor`: seed 1 gives
`max(0.05, 0.20-(round-1)*0.04)`; seed 2 gives
`max(0.08, 0.20-(round-1)*0.03)`; seeds 3–4 give
`max(0.12, 0.20-(round-1)*0.02)`; seeds 5–8 give
`max(0.15, 0.20-(round-1)*0.01)`; seeds 9–16 give
`min(0.40, 0.20+(round-1)*0.05)`. -/
def seedFactorSpec (seed round : Nat) : Q :=
  if seed = 1 then Q.max 0.05 (0.20 - ((round - 1 : Nat) : Q) * 0.04)
  else if seed = 2 then Q.max 0.08 (0.20 - ((round - 1 : Nat) : Q) * 0.03)
  else if 3 ≤ seed ∧ seed ≤ 4 then Q.max 0.12 (0.20 - ((round - 1 : Nat) : Q) * 0.02)
  else if 5 ≤ seed ∧ seed ≤ 8 then Q.max 0.15 (0.20 - ((round - 1 : Nat) : Q) * 0.01)
  else Q.min 0.40 (0.20 + ((round - 1 : Nat) : Q) * 0.05)

/-- On seeds 1–16 the source's `get_seed_factor` computes exactly the
specification's seed-tier formula (for every round). -/
theorem get_seed_factor_eq_spec (seed round : Nat) (h1 : 1 ≤ seed) (h16 : seed ≤ 16) :
    get_seed_factor seed round = seedFactorSpec seed round := by
  interval_cases seed <;>
    simp [get_seed_factor, seedFactorSpec, round_random_factor]

/-- Claim C5: for rounds 2–6 each team's randomness magnitude is the
spec's seed-tier formula of its own `(seed, round)`, each rating is
multiplied by its own uniform factor drawn from
`[1-factor, 1+factor]`, and at round 6 only, a side with seed 1 gets an
additional `×1.05` multiplier applied after that step. -/
theorem C5_seed_round_randomness (m : Matchup) (u1 u2 : Q)
    (hr2 : 2 ≤ m.round_num) (hr6 : m.round_num ≤ 6)
    (hs1 : 1 ≤ m.team1.seed) (hs1' : m.team1.seed ≤ 16)
    (hs2 : 1 ≤ m.team2.seed) (hs2' : m.team2.seed ≤ 16) :
    get_seed_factor m.team1.seed m.round_num = seedFactorSpec m.team1.seed m.round_num ∧
    get_seed_factor m.team2.seed m.round_num = seedFactorSpec m.team2.seed m.round_num ∧
    m.adjusted_elos u1 u2 =
      ((if m.round_num = 6 ∧ m.team1.seed = 1 then
          (m.team1.elo *
            uniform (1 - seedFactorSpec m.team1.seed m.round_num)
              (1 + seedFactorSpec m.team1.seed m.round_num) u1) * 1.05
        else
          m.team1.elo *
            uniform (1 - seedFactorSpec m.team1.seed m.round_num)
              (1 + seedFactorSpec m.team1.seed m.round_num) u1),
       (if m.round_num = 6 ∧ m.team2.seed = 1 then
          (m.team2.elo *
            uniform (1 - seedFactorSpec m.team2.seed m.round_num)
              (1 + seedFactorSpec m.team2.seed m.round_num) u2) * 1.05
        else
          m.team2.elo *
            uniform (1 - seedFactorSpec m.team2.seed m.round_num)
              (1 + seedFactorSpec m.team2.seed m.round_num) u2)) := by
  have hne : m.round_num ≠ 1 := by omega
  refine ⟨get_seed_factor_eq_spec _ _ hs1 hs1', get_seed_factor_eq_spec _ _ hs2 hs2', ?_⟩
  rw [Matchup.adjusted_elos]
  simp only [if_neg hne, get_seed_factor_eq_spec _ _ hs1 hs1',
    get_seed_factor_eq_spec _ _ hs2 hs2']

/-- Witness for C5: a concrete round-3 matchup between a seed-4 and a
seed-9 team. -/
theorem C5_seed_round_randomness_witness :
    get_seed_factor 4 3 = seedFactorSpec 4 3 ∧
    get_seed_factor 9 3 = seedFactorSpec 9 3 ∧
    (Matchup.adjusted_elos
        { team1 := { name := "A", seed := 4, elo := ⟨100, 1⟩, region := "East" },
          team2 := { name := "B", seed := 9, elo := ⟨90, 1⟩, region := "East" },
          round_num := 3, region := "East", game_id := 1, unique_game_id := 40 }
        ⟨1, 4⟩ ⟨3, 4⟩) =
      ((⟨100, 1⟩ : Q) * uniform (1 - seedFactorSpec 4 3) (1 + seedFactorSpec 4 3) ⟨1, 4⟩,
       (⟨90, 1⟩ : Q) * uniform (1 - seedFactorSpec 9 3) (1 + seedFactorSpec 9 3) ⟨3, 4⟩) := by
  have h := C5_seed_round_randomness
    { team1 := { name := "A", seed := 4, elo := ⟨100, 1⟩, region := "East" },
      team2 := { name := "B", seed := 9, elo := ⟨90, 1⟩, region := "East" },
      round_num := 3, region := "East", game_id := 1, unique_game_id := 40 }
    ⟨1, 4⟩ ⟨3, 4⟩ (by decide) (by decide) (by decide) (by decide) (by decide) (by decide)
  refine ⟨h.1, h.2.1, ?_⟩
  rw [h.2.2]
  simp

/-! ## Claim C1: spec-side first-round construction -/

/-- All seeds mentioned by a list of seed pairings, in order. -/
def pairSeeds (ps : List (Nat × Nat)) : List Nat := ps.flatMap (fun p => [p.1, p.2])

/-- Spec-side description of one region's first-round games: for each
seed pairing look the two seeds up in the region's (unchanging) seed
table, defaulting to a synthesized TBD placeholder, numbering games
consecutively from `gid` with `unique_game_id = game_id`. -/
def slotsSpec (r : String) (rt0 : List (Nat × Team)) : Nat → List (Nat × Nat) → List Matchup
  | _, [] => []
  | gid, (s1, s2) :: rest =>
    { team1 := (dget? s1 rt0).getD (create_tbd_team s1 r),
      team2 := (dget? s2 rt0).getD (create_tbd_team s2 r),
      round_num := 1, region := r,
      game_id := gid, unique_game_id := gid } :: slotsSpec r rt0 (gid + 1) rest

/-- Spec-side description of the whole first round: one block of eight
games per region, regions in sorted name order, with the game counter
advancing by eight from block to block. -/
def regionBlocks (tbr : List (String × List (Nat × Team))) : List String → Nat → List Matchup
  | [], _ => []
  | r :: rs, gid =>
    slotsSpec r ((dget? r tbr).getD []) gid seed_matchups ++ regionBlocks tbr rs (gid + 8)

/-- Spec-side description of `setup_first_round` (with the amended
global game numbering). -/
def firstRoundSpec (td : List TeamInfo) : List Matchup :=
  let tbr := teamsByRegion td
  regionBlocks tbr (sortStrings (dkeys tbr)) 1

theorem regionFirstRound_spec (r : String) (ps : List (Nat × Nat)) :
    ∀ (acc : List Matchup) (rt rt0 : List (Nat × Team)) (gid : Nat),
      (pairSeeds ps).Nodup →
      (∀ s, s ∈ pairSeeds ps → dget? s rt = dget? s rt0) →
      (regionFirstRound r ps (acc, rt, gid)).1 = acc ++ slotsSpec r rt0 gid ps ∧
      (regionFirstRound r ps (acc, rt, gid)).2.2 = gid + ps.length := by
  induction ps with
  | nil =>
    intro acc rt rt0 gid _ _
    simp [regionFirstRound, slotsSpec]
  | cons p rest ih =>
    obtain ⟨s1, s2⟩ := p
    intro acc rt rt0 gid hnd hagree
    have hps : pairSeeds ((s1, s2) :: rest) = s1 :: s2 :: pairSeeds rest := by
      simp [pairSeeds]
    rw [hps] at hnd hagree
    have h12 : s1 ≠ s2 := by
      intro h
      exact (List.nodup_cons.mp hnd).1 (by rw [h]; exact List.mem_cons_self _ _)
    have hs1rest : s1 ∉ pairSeeds rest := fun h =>
      (List.nodup_cons.mp hnd).1 (List.mem_cons_of_mem _ h)
    have hs2rest : s2 ∉ pairSeeds rest :=
      (List.nodup_cons.mp (List.nodup_cons.mp hnd).2).1
    have ht1 : dget? s1 rt = dget? s1 rt0 := hagree s1 (List.mem_cons_self _ _)
    have ht2 : ∀ t1 : Team, dget? s2 (dinsert s1 t1 rt) = dget? s2 rt0 := by
      intro t1
      rw [dget?_dinsert_ne _ _ _ _ (Ne.symm h12)]
      exact hagree s2 (List.mem_cons_of_mem _ (List.mem_cons_self _ _))
    have hagree' : ∀ t1 t2 : Team, ∀ s, s ∈ pairSeeds rest →
        dget? s (dinsert s2 t2 (dinsert s1 t1 rt)) = dget? s rt0 := by
      intro t1 t2 s hs
      have hne2 : s ≠ s2 := by
        intro h
        subst h
        exact hs2rest hs
      have hne1 : s ≠ s1 := by
        intro h
        subst h
        exact hs1rest hs
      rw [dget?_dinsert_ne _ _ _ _ hne2, dget?_dinsert_ne _ _ _ _ hne1]
      exact hagree s (List.mem_cons_of_mem _ (List.mem_cons_of_mem _ hs))
    have hstep : regionFirstRound r ((s1, s2) :: rest) (acc, rt, gid) =
        regionFirstRound r rest
          (acc ++ [{ team1 := (dget? s1 rt0).getD (create_tbd_team s1 r),
                     team2 := (dget? s2 rt0).getD (create_tbd_team s2 r),
                     round_num := 1, region := r,
                     game_id := gid, unique_game_id := gid }],
           dinsert s2 ((dget? s2 rt0).getD (create_tbd_team s2 r))
             (dinsert s1 ((dget? s1 rt0).getD (create_tbd_team s1 r)) rt),
           gid + 1) := by
      rw [regionFirstRound]
      rw [ht1, ht2]
    rw [hstep]
    have main := ih
      (acc ++ [{ team1 := (dget? s1 rt0).getD (create_tbd_team s1 r),
                 team2 := (dget? s2 rt0).getD (create_tbd_team s2 r),
                 round_num := 1, region := r,
                 game_id := gid, unique_game_id := gid }])
      (dinsert s2 ((dget? s2 rt0).getD (create_tbd_team s2 r))
        (dinsert s1 ((dget? s1 rt0).getD (create_tbd_team s1 r)) rt))
      rt0 (gid + 1)
      (List.nodup_cons.mp (List.nodup_cons.mp hnd).2).2
      (hagree' _ _)
    constructor
    · rw [main.1, slotsSpec]
      simp
    · rw [main.2]
      simp [List.length_cons]
      omega

theorem setup_foldl_spec (tbr : List (String × List (Nat × Team))) :
    ∀ (regions : List String) (acc : List Matchup) (gid : Nat),
      (regions.foldl
        (fun (st : List Matchup × Nat) r =>
          let region_teams := (dget? r tbr).getD []
          let res := regionFirstRound r seed_matchups (st.1, region_teams, st.2)
          (res.1, res.2.2))
        (acc, gid)).1 = acc ++ regionBlocks tbr regions gid := by
  intro regions
  induction regions with
  | nil =>
    intro acc gid
    simp [regionBlocks]
  | cons r rs ih =>
    intro acc gid
    have hspec := regionFirstRound_spec r seed_matchups acc
      ((dget? r tbr).getD []) ((dget? r tbr).getD []) gid
      (by decide) (fun s _ => rfl)
    simp only [List.foldl_cons]
    rw [hspec.1, hspec.2]
    rw [show seed_matchups.length = 8 from rfl, ih]
    simp [regionBlocks, List.append_assoc]

/-- `setup_first_round` computes exactly the spec-side description. -/
theorem setup_first_round_eq_spec (td : List TeamInfo) :
    setup_first_round td = firstRoundSpec td := by
  unfold setup_first_round firstRoundSpec
  exact setup_foldl_spec _ _ [] 1

theorem slotsSpec_length (r : String) (rt0 : List (Nat × Team)) :
    ∀ (gid : Nat) (ps : List (Nat × Nat)), (slotsSpec r rt0 gid ps).length = ps.length := by
  intro gid ps
  induction ps generalizing gid with
  | nil => simp [slotsSpec]
  | cons p rest ih =>
    obtain ⟨s1, s2⟩ := p
    simp [slotsSpec, ih]

theorem slotsSpec_map_gid (r : String) (rt0 : List (Nat × Team)) :
    ∀ (gid : Nat) (ps : List (Nat × Nat)),
      (slotsSpec r rt0 gid ps).map (fun m => m.game_id) = List.range' gid ps.length := by
  intro gid ps
  induction ps generalizing gid with
  | nil => simp [slotsSpec]
  | cons p rest ih =>
    obtain ⟨s1, s2⟩ := p
    simp [slotsSpec, ih, List.range'_succ]

theorem slotsSpec_map_uid (r : String) (rt0 : List (Nat × Team)) :
    ∀ (gid : Nat) (ps : List (Nat × Nat)),
      (slotsSpec r rt0 gid ps).map (fun m => m.unique_game_id) = List.range' gid ps.length := by
  intro gid ps
  induction ps generalizing gid with
  | nil => simp [slotsSpec]
  | cons p rest ih =>
    obtain ⟨s1, s2⟩ := p
    simp [slotsSpec, ih, List.range'_succ]

theorem slotsSpec_filter_region (r' r : String) (rt0 : List (Nat × Team)) :
    ∀ (gid : Nat) (ps : List (Nat × Nat)),
      ((slotsSpec r rt0 gid ps).filter (fun m => m.region == r')).length =
        if r = r' then ps.length else 0 := by
  intro gid ps
  induction ps generalizing gid with
  | nil => simp [slotsSpec]
  | cons p rest ih =>
    obtain ⟨s1, s2⟩ := p
    by_cases h : r = r'
    · subst h
      simp [slotsSpec, List.filter_cons, ih]
    · simp [slotsSpec, List.filter_cons, h, ih, Ne.symm h]

theorem regionBlocks_map_gid (tbr : List (String × List (Nat × Team))) :
    ∀ (regions : List String) (gid : Nat),
      (regionBlocks tbr regions gid).map (fun m => m.game_id) =
        List.range' gid (8 * regions.length) := by
  intro regions
  induction regions with
  | nil => intro gid; simp [regionBlocks]
  | cons r rs ih =>
    intro gid
    rw [regionBlocks, List.map_append, slotsSpec_map_gid, ih]
    have hsm : seed_matchups.length = 8 := by decide
    rw [hsm]
    have := List.range'_append_1 gid 8 (8 * rs.length)
    rw [this, List.length_cons, Nat.mul_succ]

theorem regionBlocks_map_uid (tbr : List (String × List (Nat × Team))) :
    ∀ (regions : List String) (gid : Nat),
      (regionBlocks tbr regions gid).map (fun m => m.unique_game_id) =
        List.range' gid (8 * regions.length) := by
  intro regions
  induction regions with
  | nil => intro gid; simp [regionBlocks]
  | cons r rs ih =>
    intro gid
    rw [regionBlocks, List.map_append, slotsSpec_map_uid, ih]
    have hsm : seed_matchups.length = 8 := by decide
    rw [hsm]
    have := List.range'_append_1 gid 8 (8 * rs.length)
    rw [this, List.length_cons, Nat.mul_succ]

theorem regionBlocks_filter_region (tbr : List (String × List (Nat × Team))) (r : String) :
    ∀ (regions : List String) (gid : Nat), regions.Nodup →
      ((regionBlocks tbr regions gid).filter (fun m => m.region == r)).length =
        if r ∈ regions then 8 else 0 := by
  intro regions
  induction regions with
  | nil => intro gid _; simp [regionBlocks]
  | cons r' rs ih =>
    intro gid hnd
    rw [regionBlocks, List.filter_append, List.length_append,
      slotsSpec_filter_region, ih _ (List.nodup_cons.mp hnd).2]
    have hsm : seed_matchups.length = 8 := by decide
    by_cases h : r' = r
    · subst h
      have : r' ∉ rs := (List.nodup_cons.mp hnd).1
      simp [this, hsm]
    · simp [h, List.mem_cons, Ne.symm h]

theorem nodup_dkeys_foldl_dinsert {A K V : Type} [DecidableEq K] (f : A → K)
    (g : A → List (K × V) → V) :
    ∀ (l : List A) (acc : List (K × V)), (dkeys acc).Nodup →
      (dkeys (l.foldl (fun acc t => dinsert (f t) (g t acc) acc) acc)).Nodup := by
  intro l
  induction l with
  | nil => intro acc h; exact h
  | cons a rest ih =>
    intro acc h
    simp only [List.foldl_cons]
    exact ih _ (nodup_dkeys_dinsert _ _ _ h)

theorem nodup_dkeys_teamsByRegion (td : List TeamInfo) :
    (dkeys (teamsByRegion td)).Nodup := by
  unfold teamsByRegion
  exact nodup_dkeys_foldl_dinsert (fun t : Team => t.region)
    (fun (t : Team) (acc : List (String × List (Nat × Team))) =>
      dinsert t.seed t ((dget? t.region acc).getD []))
    (dvalues (buildTeams td)) [] (by simp [dkeys])

/-- Claim C1 — counterexample to the game-id clause as stated: for the
complete 64-team input `stdTeams`, the eight first-round games of the
`"Midwest"` region carry `game_id`s 9–16, not 1–8. -/
theorem C1_counterexample :
    ((setup_first_round stdTeams).filter (fun m => m.region == "Midwest")).map
        (fun m => m.game_id) =
      [9, 10, 11, 12, 13, 14, 15, 16] := by decide

/-- Claim C1 (amended): for every input team list, `setup_first_round`
produces exactly 8 first-round matchups for each region present
(synthesizing a TBD placeholder with the fixed low rating for every
`(region, seed)` slot with no supplied team — this is the content of
the `firstRoundSpec` refinement), and both `game_id` and
`unique_game_id` run 1..8k globally across the k regions in sorted
region-name order (8 consecutive ids per region, not 1..8 within each
region); in particular a complete 64-team input yields exactly 32
matchups whose `unique_game_id`s form `{1..32}` with no repeats. -/
theorem C1_setup_first_round (td : List TeamInfo) (r : String)
    (hr : r ∈ dkeys (teamsByRegion td)) :
    setup_first_round td = firstRoundSpec td ∧
    ((setup_first_round td).filter (fun m => m.region == r)).length = 8 ∧
    (setup_first_round td).map (fun m => m.game_id) =
      List.range' 1 (8 * (dkeys (teamsByRegion td)).length) ∧
    (setup_first_round td).map (fun m => m.unique_game_id) =
      List.range' 1 (8 * (dkeys (teamsByRegion td)).length) ∧
    ((dkeys (teamsByRegion td)).length = 4 →
      (setup_first_round td).length = 32 ∧
      (setup_first_round td).map (fun m => m.unique_game_id) = List.range' 1 32) := by
  have hperm := List.perm_insertionSort (fun a b => strLe a b = true) (dkeys (teamsByRegion td))
  have hnd := nodup_dkeys_teamsByRegion td
  have hnds : (sortStrings (dkeys (teamsByRegion td))).Nodup := hperm.nodup_iff.mpr hnd
  have hmem : r ∈ sortStrings (dkeys (teamsByRegion td)) := hperm.mem_iff.mpr hr
  have hlen : (sortStrings (dkeys (teamsByRegion td))).length =
      (dkeys (teamsByRegion td)).length := hperm.length_eq
  have heq := setup_first_round_eq_spec td
  refine ⟨heq, ?_, ?_, ?_, ?_⟩
  · rw [heq]
    simp only [firstRoundSpec]
    rw [regionBlocks_filter_region _ _ _ _ hnds]
    simp [hmem]
  · rw [heq]
    simp only [firstRoundSpec]
    rw [regionBlocks_map_gid, hlen]
  · rw [heq]
    simp only [firstRoundSpec]
    rw [regionBlocks_map_uid, hlen]
  · intro h4
    constructor
    · have hm : (setup_first_round td).map (fun m => m.game_id) =
          List.range' 1 (8 * (dkeys (teamsByRegion td)).length) := by
        rw [heq]
        simp only [firstRoundSpec]
        rw [regionBlocks_map_gid, hlen]
      have := congrArg List.length hm
      rw [List.length_map, List.length_range'] at this
      rw [this, h4]
    · have hm : (setup_first_round td).map (fun m => m.unique_game_id) =
          List.range' 1 (8 * (dkeys (teamsByRegion td)).length) := by
        rw [heq]
        simp only [firstRoundSpec]
        rw [regionBlocks_map_uid, hlen]
      rw [hm, h4]

/-- Witness for C1 at the complete 64-team input and the `"East"`
region. -/
theorem C1_setup_first_round_witness :
    ((setup_first_round stdTeams).filter (fun m => m.region == "East")).length = 8 ∧
    (setup_first_round stdTeams).map (fun m => m.game_id) = List.range' 1 32 ∧
    (setup_first_round stdTeams).length = 32 := by
  have h := C1_setup_first_round stdTeams "East" (by decide)
  refine ⟨h.2.1, ?_, (h.2.2.2.2 (by decide)).1⟩
  have := h.2.2.1
  rwa [show (dkeys (teamsByRegion stdTeams)).length = 4 by decide] at this

/-! ## Claim C2: spec-side next-round construction (rounds 1–3) -/

/-- Consecutive pairs `(0,1),(2,3),…` of a list; a trailing unpaired
element is dropped. -/
def consecutivePairs {α : Type} : List α → List (α × α)
  | a :: b :: rest => (a, b) :: consecutivePairs rest
  | _ => []

/-- One region's winners of the current round, in ascending order of
the `game_id` of the matchup each one won. -/
def sortedWinners (wbr : WBR) (r : String) : List Team :=
  (List.insertionSort (fun a b => a.2.1 ≤ b.2.1) ((dget? r wbr).getD [])).map (fun w => w.1)

/-- Number a flat list of `(region, team1, team2)` pairings into
next-round matchups: `game_id` counts up from `gid` across the whole
round, `unique_game_id` counts up from `uid`. -/
def numberNextRound (round : Nat) : Nat → Nat → List (String × Team × Team) → List Matchup
  | _, _, [] => []
  | gid, uid, (r, t1, t2) :: rest =>
    { team1 := t1, team2 := t2, round_num := round + 1, region := r,
      game_id := gid, unique_game_id := uid } :: numberNextRound round (gid + 1) (uid + 1) rest

/-- Spec-side description (amended) of the rounds-1–3 transition:
regions in sorted name order; within each region the winners sorted by
originating `game_id` and paired consecutively; the resulting pairings
numbered sequentially from 1 across the whole round (not restarting per
region), with globally increasing unique ids from `uid`. -/
def nextRoundSpec (wbr : WBR) (round uid : Nat) : List Matchup :=
  numberNextRound round 1 uid
    ((sortStrings (dkeys wbr)).flatMap
      (fun r => (consecutivePairs (sortedWinners wbr r)).map (fun p => (r, p))))

theorem numberNextRound_length (round : Nat) :
    ∀ (gid uid : Nat) (l : List (String × Team × Team)),
      (numberNextRound round gid uid l).length = l.length := by
  intro gid uid l
  induction l generalizing gid uid with
  | nil => simp [numberNextRound]
  | cons p rest ih =>
    obtain ⟨r, t1, t2⟩ := p
    simp [numberNextRound, ih]

theorem numberNextRound_append (round : Nat) :
    ∀ (l1 l2 : List (String × Team × Team)) (gid uid : Nat),
      numberNextRound round gid uid (l1 ++ l2) =
        numberNextRound round gid uid l1 ++
          numberNextRound round (gid + l1.length) (uid + l1.length) l2 := by
  intro l1
  induction l1 with
  | nil => intro l2 gid uid; simp [numberNextRound]
  | cons p rest ih =>
    intro l2 gid uid
    obtain ⟨r, t1, t2⟩ := p
    simp only [List.cons_append, numberNextRound, List.length_cons, List.append_eq]
    rw [ih]
    have h1 : gid + 1 + rest.length = gid + (rest.length + 1) := by omega
    have h2 : uid + 1 + rest.length = uid + (rest.length + 1) := by omega
    rw [h1, h2]

theorem pairRegionWinners_spec (round : Nat) (r : String) :
    ∀ (ws : List Team) (acc : List Matchup) (gid uid : Nat),
      pairRegionWinners round r ws (acc, gid, uid) =
        (acc ++ numberNextRound round gid uid ((consecutivePairs ws).map (fun p => (r, p))),
         gid + (consecutivePairs ws).length, uid + (consecutivePairs ws).length)
  | [], acc, gid, uid => by
    simp [pairRegionWinners, consecutivePairs, numberNextRound]
  | [a], acc, gid, uid => by
    simp [pairRegionWinners, consecutivePairs, numberNextRound]
  | a :: b :: rest, acc, gid, uid => by
    rw [pairRegionWinners, pairRegionWinners_spec round r rest]
    simp only [consecutivePairs, List.map_cons, numberNextRound, List.length_cons]
    rw [List.append_assoc, List.singleton_append]
    have h1 : gid + 1 + (consecutivePairs rest).length =
        gid + ((consecutivePairs rest).length + 1) := by omega
    have h2 : uid + 1 + (consecutivePairs rest).length =
        uid + ((consecutivePairs rest).length + 1) := by omega
    rw [h1, h2]

/-- The flattened `(region, pairing)` list of a round transition, regions
in sorted order. -/
def flatSlots (wbr : WBR) (regions : List String) : List (String × Team × Team) :=
  regions.flatMap (fun r => (consecutivePairs (sortedWinners wbr r)).map (fun p => (r, p)))

theorem buildNextLT4_foldl_spec (wbr : WBR) (round : Nat) :
    ∀ (regions : List String) (acc : List Matchup) (gid uid : Nat),
      regions.foldl
        (fun (st : List Matchup × Nat × Nat) r =>
          pairRegionWinners round r (sortedWinners wbr r) st)
        (acc, gid, uid) =
      (acc ++ numberNextRound round gid uid (flatSlots wbr regions),
       gid + (flatSlots wbr regions).length, uid + (flatSlots wbr regions).length) := by
  intro regions
  induction regions with
  | nil =>
    intro acc gid uid
    simp [flatSlots, numberNextRound]
  | cons r rs ih =>
    intro acc gid uid
    simp only [List.foldl_cons]
    rw [pairRegionWinners_spec, ih]
    have hflat : flatSlots wbr (r :: rs) =
        (consecutivePairs (sortedWinners wbr r)).map (fun p => (r, p)) ++ flatSlots wbr rs := by
      simp [flatSlots]
    rw [hflat, numberNextRound_append, List.append_assoc, List.length_append,
      List.length_map]
    have h1 : gid + (consecutivePairs (sortedWinners wbr r)).length + (flatSlots wbr rs).length =
        gid + ((consecutivePairs (sortedWinners wbr r)).length + (flatSlots wbr rs).length) := by
      omega
    have h2 : uid + (consecutivePairs (sortedWinners wbr r)).length + (flatSlots wbr rs).length =
        uid + ((consecutivePairs (sortedWinners wbr r)).length + (flatSlots wbr rs).length) := by
      omega
    rw [h1, h2]

/-- `buildNextLT4` computes exactly the spec-side description, and its
returned counter advances by the number of matchups created. -/
theorem buildNextLT4_eq_spec (wbr : WBR) (round uid : Nat) :
    buildNextLT4 wbr round uid =
      (nextRoundSpec wbr round uid, uid + (nextRoundSpec wbr round uid).length) := by
  unfold buildNextLT4 nextRoundSpec
  have hfun : (fun (st : List Matchup × Nat × Nat) r =>
      let winners := (dget? r wbr).getD []
      let sorted_winners := List.insertionSort (fun a b => a.2.1 ≤ b.2.1) winners
      let winners_only := sorted_winners.map (fun w => w.1)
      pairRegionWinners round r winners_only st) =
      (fun (st : List Matchup × Nat × Nat) r =>
        pairRegionWinners round r (sortedWinners wbr r) st) := rfl
  rw [hfun]
  dsimp only
  rw [buildNextLT4_foldl_spec wbr round (sortStrings (dkeys wbr)) [] 1 uid]
  simp [numberNextRound_length, flatSlots]

/-- Claim C2 — counterexample to the per-region game-id restart as
stated: in the standard run, the round-2 matchups' `game_id`s (as
recorded in the round-2 result rows) continue 1..16 across the four
regions instead of restarting at 1 for each region. -/
theorem C2_counterexample :
    ((dget? 2 (simulate_tournament (setup_first_round stdTeams) halfDraws)).getD []).map
        (fun g => (g.region, g.game_id)) =
      [("East", 1), ("East", 2), ("East", 3), ("East", 4),
       ("Midwest", 5), ("Midwest", 6), ("Midwest", 7), ("Midwest", 8),
       ("South", 9), ("South", 10), ("South", 11), ("South", 12),
       ("West", 13), ("West", 14), ("West", 15), ("West", 16)] := by
  set_option maxRecDepth 100000 in decide

/-- Claim C2 (amended): for rounds 1–3, after all current-round
matchups are simulated the winners are grouped by region, sorted within
each region by the `game_id` of the matchup they won, and paired
consecutively `(0,1),(2,3),…` into next-round matchups; the new
matchups' `game_id`s are assigned by one counter that starts at 1 for
the round and continues across the sorted regions without restarting
per region, and each new matchup receives the next globally increasing
`unique_game_id`.  The first conjunct is the transition refinement; the
second ties it into the loop body of `simulate_tournament`. -/
theorem C2_rounds_1_to_3 (wbr : WBR) (round uid : Nat) (hr1 : 1 ≤ round) (hr : round < 4)
    (d : Draws) (fuel pos : Nat) (ms : List Matchup) (hms : ms ≠ [])
    (results : Results) (wbr0 : WBR) :
    buildNextLT4 wbr round uid =
      (nextRoundSpec wbr round uid, uid + (nextRoundSpec wbr round uid).length) ∧
    simLoop d (fuel + 1) round ms wbr0 results uid pos =
      (let wbr1 := (currentRegions ms).foldl (fun w r => dinsert r [] w) wbr0
       let phase := simulatePhase d ms pos wbr1
       let nxt := buildNextLT4 phase.2.1 round uid
       simLoop d fuel (round + 1) nxt.1 phase.2.1 (dinsert round phase.1 results)
         nxt.2 phase.2.2) := by
  refine ⟨buildNextLT4_eq_spec wbr round uid, ?_⟩
  rw [simLoop]
  rw [if_pos (show round ≤ 6 ∧ (ms ≠ [] ∨ round = 6) from ⟨by omega, Or.inl hms⟩)]
  rw [if_pos hr]

/-- Witness for C2: a two-region winners table at round 2. -/
theorem C2_rounds_1_to_3_witness :
    buildNextLT4
        [("A", [({ name := "A2", seed := 2, elo := ⟨50, 1⟩, region := "A" }, 2, 34),
                ({ name := "A1", seed := 1, elo := ⟨60, 1⟩, region := "A" }, 1, 33)]),
         ("B", [({ name := "B1", seed := 1, elo := ⟨70, 1⟩, region := "B" }, 1, 35),
                ({ name := "B3", seed := 3, elo := ⟨40, 1⟩, region := "B" }, 2, 36)])]
        2 37 =
      (nextRoundSpec
        [("A", [({ name := "A2", seed := 2, elo := ⟨50, 1⟩, region := "A" }, 2, 34),
                ({ name := "A1", seed := 1, elo := ⟨60, 1⟩, region := "A" }, 1, 33)]),
         ("B", [({ name := "B1", seed := 1, elo := ⟨70, 1⟩, region := "B" }, 1, 35),
                ({ name := "B3", seed := 3, elo := ⟨40, 1⟩, region := "B" }, 2, 36)])]
        2 37,
       37 + (nextRoundSpec
        [("A", [({ name := "A2", seed := 2, elo := ⟨50, 1⟩, region := "A" }, 2, 34),
                ({ name := "A1", seed := 1, elo := ⟨60, 1⟩, region := "A" }, 1, 33)]),
         ("B", [({ name := "B1", seed := 1, elo := ⟨70, 1⟩, region := "B" }, 1, 35),
                ({ name := "B3", seed := 3, elo := ⟨40, 1⟩, region := "B" }, 2, 36)])]
        2 37).length) ∧
    (nextRoundSpec
        [("A", [({ name := "A2", seed := 2, elo := ⟨50, 1⟩, region := "A" }, 2, 34),
                ({ name := "A1", seed := 1, elo := ⟨60, 1⟩, region := "A" }, 1, 33)]),
         ("B", [({ name := "B1", seed := 1, elo := ⟨70, 1⟩, region := "B" }, 1, 35),
                ({ name := "B3", seed := 3, elo := ⟨40, 1⟩, region := "B" }, 2, 36)])]
        2 37).map (fun m => (m.region, m.game_id, m.unique_game_id)) =
      [("A", 1, 37), ("B", 2, 38)] := by
  refine ⟨(C2_rounds_1_to_3 _ 2 37 (by decide) (by decide) halfDraws 0 0
    [{ team1 := { name := "X", seed := 1, elo := ⟨1, 1⟩, region := "A" },
       team2 := { name := "Y", seed := 2, elo := ⟨1, 1⟩, region := "A" },
       round_num := 2, region := "A", game_id := 1, unique_game_id := 33 }]
    (by decide) [] []).1, by decide⟩

/-! ## Claim C7: spec-side Final Four construction -/

/-- Whether a region currently has at least one recorded winner. -/
def regionHasWinner (wbr : WBR) (r : String) : Bool :=
  match dget? r wbr with
  | some (_ :: _) => true
  | _ => false

/-- The region's champion as the round-4-to-5 transition uses it: the
first recorded winner of the region's winner list, or a backfilled
synthetic TBD champion of seed 1 when no winner is recorded. -/
def championOf (wbr : WBR) (r : String) : Team :=
  match dget? r wbr with
  | some (w :: _) => w.1
  | _ => create_tbd_team 1 r

/-- Spec-side champions list: one champion per canonical region, in the
fixed canonical order `["East", "West", "South", "Midwest"]`. -/
def championsSpec (wbr : WBR) : List (Team × String) :=
  standard_regions.map (fun r => (championOf wbr r, r))

theorem dget?_eq_none_of_not_mem {K V : Type} [DecidableEq K] (k : K) (l : List (K × V))
    (h : k ∉ dkeys l) : dget? k l = none := by
  induction l with
  | nil => rfl
  | cons p rest ih =>
    obtain ⟨k', v'⟩ := p
    rw [dkeys, List.map_cons] at h
    simp only [List.mem_cons, not_or] at h
    rw [dget?, if_neg (fun hh => h.1 hh.symm)]
    exact ih h.2

theorem champsFold_eq (wbr : WBR) :
    ∀ (l : List String) (acc : List (Team × String)),
      l.foldl (champStep wbr) acc =
      acc ++ (l.filter (regionHasWinner wbr)).map (fun r => (championOf wbr r, r)) := by
  intro l
  induction l with
  | nil => intro acc; simp
  | cons r rs ih =>
    intro acc
    simp only [List.foldl_cons, List.filter_cons]
    cases hd : dget? r wbr with
    | none => simp [champStep, regionHasWinner, hd, ih]
    | some ws =>
      cases ws with
      | nil => simp [champStep, regionHasWinner, hd, ih]
      | cons w rest =>
        simp [champStep, regionHasWinner, championOf, hd, ih, List.append_assoc]

theorem backfillFold_eq (existing : List String) :
    ∀ (l : List String) (acc : List (Team × String)),
      l.foldl (fun acc r => if r ∈ existing then acc else acc ++ [(create_tbd_team 1 r, r)]) acc =
      acc ++ (l.filter (fun r => !decide (r ∈ existing))).map
        (fun r => (create_tbd_team 1 r, r)) := by
  intro l
  induction l with
  | nil => intro acc; simp
  | cons r rs ih =>
    intro acc
    simp only [List.foldl_cons, List.filter_cons]
    by_cases h : r ∈ existing
    · simp [h, ih]
    · simp [h, ih, List.append_assoc]

theorem championOf_eq_tbd (wbr : WBR) (r : String)
    (h : r ∉ (sortStrings (dkeys wbr)).filter (regionHasWinner wbr)) :
    championOf wbr r = create_tbd_team 1 r := by
  by_cases hm : r ∈ sortStrings (dkeys wbr)
  · have hw : regionHasWinner wbr r = false := by
      by_cases hww : regionHasWinner wbr r = true
      · exact absurd (List.mem_filter.mpr ⟨hm, hww⟩) h
      · exact Bool.eq_false_iff.mpr hww
    rw [championOf]
    rw [regionHasWinner] at hw
    cases hd : dget? r wbr with
    | none => simp [hd]
    | some ws =>
      cases ws with
      | nil => simp [hd]
      | cons w rest =>
        rw [hd] at hw
        simp at hw
  · have hnm : r ∉ dkeys wbr := fun hh =>
      hm ((List.perm_insertionSort (fun a b => strLe a b = true) (dkeys wbr)).mem_iff.mpr hh)
    rw [championOf, dget?_eq_none_of_not_mem _ _ hnm]

theorem championsSort_eq (wbr : WBR)
    (hnd : (dkeys wbr).Nodup) (hsub : ∀ r ∈ dkeys wbr, r ∈ standard_regions) :
    List.insertionSort (fun a b => standardRegionIndex a.2 ≤ standardRegionIndex b.2)
      (((sortStrings (dkeys wbr)).filter (regionHasWinner wbr)).map
          (fun r => (championOf wbr r, r)) ++
        (standard_regions.filter
            (fun r => !decide (r ∈ (sortStrings (dkeys wbr)).filter (regionHasWinner wbr)))).map
          (fun r => (create_tbd_team 1 r, r))) =
    championsSpec wbr := by
  have hperm := List.perm_insertionSort (fun a b => strLe a b = true) (dkeys wbr)
  have hndS : (sortStrings (dkeys wbr)).Nodup := hperm.nodup_iff.mpr hnd
  have hsubS : ∀ r ∈ sortStrings (dkeys wbr), r ∈ standard_regions :=
    fun r hr => hsub r (hperm.mem_iff.mp hr)
  have hmap2 : (standard_regions.filter
        (fun r => !decide (r ∈ (sortStrings (dkeys wbr)).filter (regionHasWinner wbr)))).map
        (fun r => (create_tbd_team 1 r, r)) =
      (standard_regions.filter
        (fun r => !decide (r ∈ (sortStrings (dkeys wbr)).filter (regionHasWinner wbr)))).map
        (fun r => (championOf wbr r, r)) := by
    apply List.map_congr_left
    intro r hr
    rw [List.mem_filter] at hr
    have hno : r ∉ (sortStrings (dkeys wbr)).filter (regionHasWinner wbr) := by
      have h2 := hr.2
      rw [Bool.not_eq_true', decide_eq_false_iff_not] at h2
      exact h2
    rw [championOf_eq_tbd wbr r hno]
  rw [hmap2, ← List.map_append]
  have hTperm : List.Perm
      ((sortStrings (dkeys wbr)).filter (regionHasWinner wbr) ++
        standard_regions.filter
          (fun r => !decide (r ∈ (sortStrings (dkeys wbr)).filter (regionHasWinner wbr))))
      standard_regions := by
    have hnd1 : ((sortStrings (dkeys wbr)).filter (regionHasWinner wbr)).Nodup :=
      hndS.filter _
    have hnd2 : (standard_regions.filter
        (fun r => !decide (r ∈ (sortStrings (dkeys wbr)).filter (regionHasWinner wbr)))).Nodup :=
      (by decide : standard_regions.Nodup).filter _
    have hndT : ((sortStrings (dkeys wbr)).filter (regionHasWinner wbr) ++
        standard_regions.filter
          (fun r => !decide (r ∈ (sortStrings (dkeys wbr)).filter (regionHasWinner wbr)))).Nodup := by
      rw [List.nodup_append]
      refine ⟨hnd1, hnd2, ?_⟩
      intro a ha hb
      rw [List.mem_filter] at hb
      have h2 := hb.2
      rw [Bool.not_eq_true', decide_eq_false_iff_not] at h2
      exact h2 ha
    refine (List.perm_ext_iff_of_nodup hndT (by decide)).mpr ?_
    intro a
    constructor
    · intro ha
      rcases List.mem_append.mp ha with h1 | h2
      · exact hsubS a (List.mem_filter.mp h1).1
      · exact (List.mem_filter.mp h2).1
    · intro ha
      by_cases hc : a ∈ (sortStrings (dkeys wbr)).filter (regionHasWinner wbr)
      · exact List.mem_append.mpr (Or.inl hc)
      · refine List.mem_append.mpr (Or.inr (List.mem_filter.mpr ⟨ha, ?_⟩))
        rw [Bool.not_eq_true', decide_eq_false_iff_not]
        exact hc
  have hchperm := hTperm.map (fun r => (championOf wbr r, r))
  have hpermF :
      List.Perm
      (List.insertionSort (fun a b => standardRegionIndex a.2 ≤ standardRegionIndex b.2)
        (((sortStrings (dkeys wbr)).filter (regionHasWinner wbr) ++
          standard_regions.filter
            (fun r => !decide
              (r ∈ (sortStrings (dkeys wbr)).filter (regionHasWinner wbr)))).map
          (fun r => (championOf wbr r, r))))
        (championsSpec wbr) :=
    (List.perm_insertionSort _ _).trans hchperm
  haveI : IsTotal (Team × String)
      (fun a b => standardRegionIndex a.2 ≤ standardRegionIndex b.2) :=
    ⟨fun a b => Nat.le_total _ _⟩
  haveI : IsTrans (Team × String)
      (fun a b => standardRegionIndex a.2 ≤ standardRegionIndex b.2) :=
    ⟨fun a b c => Nat.le_trans⟩
  have hsorted := List.sorted_insertionSort
    (fun (a b : Team × String) => standardRegionIndex a.2 ≤ standardRegionIndex b.2)
    (((sortStrings (dkeys wbr)).filter (regionHasWinner wbr) ++
      standard_regions.filter
        (fun r => !decide (r ∈ (sortStrings (dkeys wbr)).filter (regionHasWinner wbr)))).map
      (fun r => (championOf wbr r, r)))
  have hspecidx : (championsSpec wbr).map (fun c => standardRegionIndex c.2) = [0, 1, 2, 3] := by
    simp [championsSpec, standard_regions, standardRegionIndex]
  have hidx : ((List.insertionSort
      (fun (a b : Team × String) => standardRegionIndex a.2 ≤ standardRegionIndex b.2)
      (((sortStrings (dkeys wbr)).filter (regionHasWinner wbr) ++
        standard_regions.filter
          (fun r => !decide (r ∈ (sortStrings (dkeys wbr)).filter (regionHasWinner wbr)))).map
        (fun r => (championOf wbr r, r)))).map (fun c => standardRegionIndex c.2)).Nodup := by
    refine ((hpermF.map (fun c => standardRegionIndex c.2)).nodup_iff).mpr ?_
    rw [hspecidx]
    decide
  have hPnodup := (List.pairwise_map.mp hidx)
  have hstrict := (hsorted.and hPnodup).imp
    (fun h => Nat.lt_of_le_of_ne h.1 h.2)
  have hspecStrict : List.Pairwise
      (fun (a b : Team × String) => standardRegionIndex a.2 < standardRegionIndex b.2)
      (championsSpec wbr) := by
    simp [championsSpec, standard_regions, List.pairwise_cons, standardRegionIndex]
  haveI : IsAntisymm (Team × String)
      (fun a b => standardRegionIndex a.2 < standardRegionIndex b.2) :=
    ⟨fun a b h1 h2 => absurd (Nat.lt_trans h1 h2) (Nat.lt_irrefl _)⟩
  exact List.eq_of_perm_of_sorted hpermF hstrict hspecStrict

/-- Claim C7: at the round-4-to-round-5 transition, each region's
champion is the first recorded winner in that region's winner list, any
canonical region with no recorded champion is backfilled with a
synthetic TBD champion, champions are ordered by the fixed canonical
sequence `["East", "West", "South", "Midwest"]`, and the two semifinals
are champions 0 vs 1 and champions 2 vs 3, with the next two unique
game ids.  The second conjunct ties the construction into the loop body
of `simulate_tournament`. -/
theorem C7_final_four (wbr : WBR) (uid : Nat)
    (hnd : (dkeys wbr).Nodup) (hsub : ∀ r ∈ dkeys wbr, r ∈ standard_regions) :
    buildFinalFour wbr uid =
      ([{ team1 := championOf wbr "East", team2 := championOf wbr "West",
          round_num := 5, region := "Final Four", game_id := 1, unique_game_id := uid },
        { team1 := championOf wbr "South", team2 := championOf wbr "Midwest",
          round_num := 5, region := "Final Four", game_id := 2, unique_game_id := uid + 1 }],
       uid + 2) ∧
    (∀ (d : Draws) (fuel pos : Nat) (ms : List Matchup) (results : Results) (wbr0 : WBR),
      ms ≠ [] →
      simLoop d (fuel + 1) 4 ms wbr0 results uid pos =
        (let wbr1 := (currentRegions ms).foldl (fun w r => dinsert r [] w) wbr0
         let phase := simulatePhase d ms pos wbr1
         let nxt := buildFinalFour phase.2.1 uid
         simLoop d fuel 5 nxt.1 phase.2.1 (dinsert 4 phase.1 results) nxt.2 phase.2.2)) := by
  constructor
  · rw [buildFinalFour]
    rw [champsFold_eq, List.nil_append]
    have hexist : (((sortStrings (dkeys wbr)).filter (regionHasWinner wbr)).map
        (fun r => (championOf wbr r, r))).map (fun c => c.2) =
        (sortStrings (dkeys wbr)).filter (regionHasWinner wbr) := by
      rw [List.map_map]
      exact List.map_id _
    rw [hexist, backfillFold_eq, championsSort_eq wbr hnd hsub]
    rw [if_pos (by simp [championsSpec, standard_regions] : (championsSpec wbr).length ≥ 4)]
    simp [championsSpec, standard_regions]
  · intro d fuel pos ms results wbr0 hms
    rw [simLoop]
    rw [if_pos (show (4 : Nat) ≤ 6 ∧ (ms ≠ [] ∨ (4 : Nat) = 6) from ⟨by omega, Or.inl hms⟩)]
    rw [if_neg (by omega : ¬ ((4 : Nat) < 4))]
    rw [if_pos rfl]

/-- Witness for C7: a winners table with three regions recorded (the
`"West"` slot left empty, so its champion is backfilled). -/
theorem C7_final_four_witness :
    buildFinalFour
        [("East", [({ name := "E", seed := 1, elo := ⟨9, 1⟩, region := "East" }, 1, 57)]),
         ("Midwest", [({ name := "M", seed := 2, elo := ⟨8, 1⟩, region := "Midwest" }, 1, 60)]),
         ("South", [({ name := "S", seed := 3, elo := ⟨7, 1⟩, region := "South" }, 1, 59)])]
        61 =
      ([{ team1 := { name := "E", seed := 1, elo := ⟨9, 1⟩, region := "East" },
          team2 := create_tbd_team 1 "West",
          round_num := 5, region := "Final Four", game_id := 1, unique_game_id := 61 },
        { team1 := { name := "S", seed := 3, elo := ⟨7, 1⟩, region := "South" },
          team2 := { name := "M", seed := 2, elo := ⟨8, 1⟩, region := "Midwest" },
          round_num := 5, region := "Final Four", game_id := 2, unique_game_id := 62 }],
       63) := by
  have h := (C7_final_four
    [("East", [({ name := "E", seed := 1, elo := ⟨9, 1⟩, region := "East" }, 1, 57)]),
     ("Midwest", [({ name := "M", seed := 2, elo := ⟨8, 1⟩, region := "Midwest" }, 1, 60)]),
     ("South", [({ name := "S", seed := 3, elo := ⟨7, 1⟩, region := "South" }, 1, 59)])]
    61 (by decide) (by decide)).1
  rw [h]
  decide

/-! ## Claim C6 -/

/-- All `unique_game_id`s recorded in the result table, in round order
and, within a round, in simulation order (= creation order). -/
def allUids (results : Results) : List Nat :=
  ((results.map (fun p => p.2)).flatten).map (fun g => g.unique_game_id)

theorem numberNextRound_map_uid (round : Nat) :
    ∀ (gid uid : Nat) (l : List (String × Team × Team)),
      (numberNextRound round gid uid l).map (fun m => m.unique_game_id) =
        List.range' uid l.length := by
  intro gid uid l
  induction l generalizing gid uid with
  | nil => simp [numberNextRound]
  | cons p rest ih =>
    obtain ⟨r, t1, t2⟩ := p
    simp [numberNextRound, ih, List.range'_succ]

theorem buildNextLT4_uids (wbr : WBR) (round uid : Nat) :
    (buildNextLT4 wbr round uid).1.map (fun m => m.unique_game_id) =
      List.range' uid (buildNextLT4 wbr round uid).1.length ∧
    (buildNextLT4 wbr round uid).2 = uid + (buildNextLT4 wbr round uid).1.length := by
  rw [buildNextLT4_eq_spec]
  constructor
  · rw [nextRoundSpec, numberNextRound_map_uid, numberNextRound_length]
  · rfl

theorem buildFinalFour_uids (wbr : WBR) (uid : Nat) :
    (buildFinalFour wbr uid).1.map (fun m => m.unique_game_id) =
      List.range' uid (buildFinalFour wbr uid).1.length ∧
    (buildFinalFour wbr uid).2 = uid + (buildFinalFour wbr uid).1.length := by
  rw [buildFinalFour]
  split
  · simp [List.range']
  · simp [List.range']

/-- Claim C6: `unique_game_id`s are assigned by one strictly increasing
counter and never reused — every round transition hands its matchups
the consecutive block of ids starting at the current counter (which
exceeds every previously assigned id) and returns the counter advanced
past the block — and, for the standard complete 64-team bracket, the
ids recorded across the whole run are exactly `1..63` (63 distinct
values) in creation order. -/
theorem C6_unique_ids (wbr : WBR) (round uid uidF : Nat) :
    ((buildNextLT4 wbr round uid).1.map (fun m => m.unique_game_id) =
       List.range' uid (buildNextLT4 wbr round uid).1.length ∧
     (buildNextLT4 wbr round uid).2 = uid + (buildNextLT4 wbr round uid).1.length) ∧
    ((buildFinalFour wbr uidF).1.map (fun m => m.unique_game_id) =
       List.range' uidF (buildFinalFour wbr uidF).1.length ∧
     (buildFinalFour wbr uidF).2 = uidF + (buildFinalFour wbr uidF).1.length) ∧
    allUids (simulate_tournament (setup_first_round stdTeams) halfDraws) =
      List.range' 1 63 := by
  refine ⟨buildNextLT4_uids wbr round uid, buildFinalFour_uids wbr uidF, ?_⟩
  set_option maxRecDepth 1000000 in decide

/-! ## Claim C10 -/

/-- Claim C10: in a run reaching round 5 with the two semifinal
matchups, each Final Four matchup is simulated twice — once by the
generic per-round loop (draws at `pos..pos+3`) and again inside the
round-5 branch (draws at `pos+4..pos+7`) — the round-5 rows first
stored are overwritten by rows built from the second winners, the
championship is built from the two second winners and simulated at once
(draws `pos+8, pos+9`), and the final table's round-5 entry holds the
second-simulation rows. -/
theorem C10_final_four_double_sim (d : Draws) (fuel pos uid : Nat) (m1 m2 : Matchup)
    (h1 : m1.round_num = 5) (h2 : m2.round_num = 5)
    (results : Results) (wbr0 : WBR) :
    simLoop d (fuel + 1) 5 [m1, m2] wbr0 results uid pos =
      dinsert 6
        [⟨m1.simulate_with_seed_based_randomness (d (pos + 4)) (d (pos + 5)),
          m2.simulate_with_seed_based_randomness (d (pos + 6)) (d (pos + 7)),
          (Matchup.mk
              (m1.simulate_with_seed_based_randomness (d (pos + 4)) (d (pos + 5)))
              (m2.simulate_with_seed_based_randomness (d (pos + 6)) (d (pos + 7)))
              6 "Championship" 1 uid).simulate_with_seed_based_randomness
            (d (pos + 8)) (d (pos + 9)),
          "Championship", 1, uid⟩]
        (dinsert 5
          [⟨m1.team1, m1.team2,
            m1.simulate_with_seed_based_randomness (d (pos + 4)) (d (pos + 5)),
            m1.region, m1.game_id, m1.unique_game_id⟩,
           ⟨m2.team1, m2.team2,
            m2.simulate_with_seed_based_randomness (d (pos + 6)) (d (pos + 7)),
            m2.region, m2.game_id, m2.unique_game_id⟩]
          (dinsert 5
            [⟨m1.team1, m1.team2,
              m1.simulate_with_seed_based_randomness (d pos) (d (pos + 1)),
              m1.region, m1.game_id, m1.unique_game_id⟩,
             ⟨m2.team1, m2.team2,
              m2.simulate_with_seed_based_randomness (d (pos + 2)) (d (pos + 3)),
              m2.region, m2.game_id, m2.unique_game_id⟩]
            results)) ∧
    dget? 5 (simLoop d (fuel + 1) 5 [m1, m2] wbr0 results uid pos) =
      some
        [⟨m1.team1, m1.team2,
          m1.simulate_with_seed_based_randomness (d (pos + 4)) (d (pos + 5)),
          m1.region, m1.game_id, m1.unique_game_id⟩,
         ⟨m2.team1, m2.team2,
          m2.simulate_with_seed_based_randomness (d (pos + 6)) (d (pos + 7)),
          m2.region, m2.game_id, m2.unique_game_id⟩] := by
  have hmain : simLoop d (fuel + 1) 5 [m1, m2] wbr0 results uid pos =
      dinsert 6
        [⟨m1.simulate_with_seed_based_randomness (d (pos + 4)) (d (pos + 5)),
          m2.simulate_with_seed_based_randomness (d (pos + 6)) (d (pos + 7)),
          (Matchup.mk
              (m1.simulate_with_seed_based_randomness (d (pos + 4)) (d (pos + 5)))
              (m2.simulate_with_seed_based_randomness (d (pos + 6)) (d (pos + 7)))
              6 "Championship" 1 uid).simulate_with_seed_based_randomness
            (d (pos + 8)) (d (pos + 9)),
          "Championship", 1, uid⟩]
        (dinsert 5
          [⟨m1.team1, m1.team2,
            m1.simulate_with_seed_based_randomness (d (pos + 4)) (d (pos + 5)),
            m1.region, m1.game_id, m1.unique_game_id⟩,
           ⟨m2.team1, m2.team2,
            m2.simulate_with_seed_based_randomness (d (pos + 6)) (d (pos + 7)),
            m2.region, m2.game_id, m2.unique_game_id⟩]
          (dinsert 5
            [⟨m1.team1, m1.team2,
              m1.simulate_with_seed_based_randomness (d pos) (d (pos + 1)),
              m1.region, m1.game_id, m1.unique_game_id⟩,
             ⟨m2.team1, m2.team2,
              m2.simulate_with_seed_based_randomness (d (pos + 2)) (d (pos + 3)),
              m2.region, m2.game_id, m2.unique_game_id⟩]
            results)) := by
    rw [simLoop]
    rw [if_pos (show (5 : Nat) ≤ 6 ∧ (([m1, m2] : List Matchup) ≠ [] ∨ (5 : Nat) = 6) from
      ⟨by omega, Or.inl (by simp)⟩)]
    rw [if_neg (by omega : ¬ ((5 : Nat) < 4))]
    rw [if_neg (by omega : (5 : Nat) ≠ 4)]
    rw [if_pos rfl]
    simp only [simulatePhase, Matchup.simulateStep, round5Finish, simulateAll, h1, h2,
      List.zip_cons_cons, List.zip_nil_right, List.map_cons, List.map_nil]
    norm_num
  refine ⟨hmain, ?_⟩
  rw [hmain]
  rw [dget?_dinsert_ne 5 6 _ _ (by omega)]
  rw [dget?_dinsert_self]

/-- Witness for C10: a draw stream whose first four draws are high and
the rest low, so the second simulation pass flips the second
semifinal's winner (the recorded round-5 rows come from the second
pass). -/
theorem C10_final_four_double_sim_witness :
    dget? 5 (simLoop (fun n => if n ≤ 3 then ⟨1, 1⟩ else ⟨0, 1⟩) 1 5
        [{ team1 := { name := "A", seed := 1, elo := ⟨100, 1⟩, region := "East" },
           team2 := { name := "B", seed := 2, elo := ⟨90, 1⟩, region := "West" },
           round_num := 5, region := "Final Four", game_id := 1, unique_game_id := 61 },
         { team1 := { name := "C", seed := 1, elo := ⟨95, 1⟩, region := "South" },
           team2 := { name := "D", seed := 9, elo := ⟨85, 1⟩, region := "Midwest" },
           round_num := 5, region := "Final Four", game_id := 2, unique_game_id := 62 }]
        [] [] 63 0) =
      some
        [⟨{ name := "A", seed := 1, elo := ⟨100, 1⟩, region := "East" },
          { name := "B", seed := 2, elo := ⟨90, 1⟩, region := "West" },
          { name := "A", seed := 1, elo := ⟨100, 1⟩, region := "East" },
          "Final Four", 1, 61⟩,
         ⟨{ name := "C", seed := 1, elo := ⟨95, 1⟩, region := "South" },
          { name := "D", seed := 9, elo := ⟨85, 1⟩, region := "Midwest" },
          { name := "C", seed := 1, elo := ⟨95, 1⟩, region := "South" },
          "Final Four", 2, 62⟩] := by
  rw [(C10_final_four_double_sim (fun n => if n ≤ 3 then ⟨1, 1⟩ else ⟨0, 1⟩) 0 0 63
    { team1 := { name := "A", seed := 1, elo := ⟨100, 1⟩, region := "East" },
      team2 := { name := "B", seed := 2, elo := ⟨90, 1⟩, region := "West" },
      round_num := 5, region := "Final Four", game_id := 1, unique_game_id := 61 }
    { team1 := { name := "C", seed := 1, elo := ⟨95, 1⟩, region := "South" },
      team2 := { name := "D", seed := 9, elo := ⟨85, 1⟩, region := "Midwest" },
      round_num := 5, region := "Final Four", game_id := 2, unique_game_id := 62 }
    rfl rfl [] []).2]
  decide

/-! ## Claim C9 -/

/-- Claim C9: for the complete 64-team input with strictly decreasing
ratings by seed within each of the four regions and all uniform draws
fixed at 1.0 (unit draw `1/2`, so every `uniform (1-r) (1+r)` call
returns exactly 1), the tournament's round-6 result entry's winner is
the seed-1 team of the alphabetically first region, which is also the
unique overall-highest-rated input team. -/
theorem C9_deterministic_champion :
    dget? 6 (simulate_tournament (setup_first_round stdTeams) halfDraws) =
      some [⟨{ name := "East 1", seed := 1, elo := ⟨1980, 1⟩, region := "East",
               is_tbd := false },
             { name := "South 1", seed := 1, elo := ⟨1978, 1⟩, region := "South",
               is_tbd := false },
             { name := "East 1", seed := 1, elo := ⟨1980, 1⟩, region := "East",
               is_tbd := false },
             "Championship", 1, 63⟩] ∧
    (uniform (1 - ⟨3, 100⟩) (1 + ⟨3, 100⟩) (halfDraws 0)).eqv 1 ∧
    (sortStrings (dkeys (teamsByRegion stdTeams))).head? = some "East" ∧
    (∀ t ∈ stdTeams, t.name = "East 1" ∨ t.elo < ⟨1980, 1⟩) := by
  refine ⟨?_, by decide, by decide, by decide⟩
  set_option maxRecDepth 1000000 in decide
